import Mathlib

/-!
Verification of `build_shaders.py`, a shader build script.

The script lists a fixed source directory, filters entries by a fixed set of
filename suffixes, and for each match runs the external compiler `glslc` with
a fixed argument template, printing a success or failure message per file.

Shallow embedding: the external world is a function from argument vectors to
process outcomes; the script is a pure function from that environment and the
directory listing to a trace of observable events (directory creation, process
invocations, console prints) together with a flag recording whether the run
was aborted by an uncaught exception.  Python string/path primitives used by
the script (`str.endswith`, `str.startswith`, `os.path.join`, `os.makedirs`)
are embedded over `String` / `List Char`.
-/

/-- Embeds Python `list.isPrefixOf`-style check on character lists:
`isPrefixList p s` is true iff `p` is a prefix of `s`. -/
def isPrefixList : List Char → List Char → Bool
  | [], _ => true
  | _ :: _, [] => false
  | p :: ps, c :: cs => p == c && isPrefixList ps cs

/-- Embeds Python `str.startswith`: true iff `p` is a prefix of `s`. -/
def startswith (s p : String) : Bool := isPrefixList p.data s.data

/-- Embeds Python `str.endswith`: true iff `p` is a suffix of `s`. -/
def endswith (s p : String) : Bool := isPrefixList p.data.reverse s.data.reverse

/-- Embeds posix `os.path.join(a, b)`: if `b` is absolute it wins; otherwise
a separator is inserted unless `a` is empty or already ends with one. -/
def ospath_join (a b : String) : String :=
  if startswith b "/" then b
  else if a == "" || endswith a "/" then a ++ b
  else a ++ "/" ++ b

/-- Source line `shader_dir = "resources/shaders"`. -/
def shader_dir : String := "resources/shaders"

/-- Source line `output_dir = os.path.join(shader_dir, "spv")`. -/
def output_dir : String := ospath_join shader_dir "spv"

/-- Source line `shader_extensions = [".rchit", ".rmiss", ".rgen", ".rint"]`. -/
def shader_extensions : List String := [".rchit", ".rmiss", ".rgen", ".rint"]

/-- Source line `any(filename.endswith(ext) for ext in shader_extensions)`. -/
def matchesShader (filename : String) : Bool :=
  shader_extensions.any (fun ext => endswith filename ext)

/-- Source line `shader_path = os.path.join(shader_dir, filename)`. -/
def shaderPath (filename : String) : String := ospath_join shader_dir filename

/-- Source line `output_path = os.path.join(output_dir, f"{filename}.spv")`. -/
def outputPath (filename : String) : String :=
  ospath_join output_dir (filename ++ ".spv")

/-- Argument vector of the `subprocess.run` call:
`["glslc", shader_path, "--target-spv=spv1.6", "-o", output_path]`. -/
def compileArgs (filename : String) : List String :=
  ["glslc", shaderPath filename, "--target-spv=spv1.6", "-o", outputPath filename]

/-- Outcome of attempting to launch the external compiler process: either the
process runs and exits with a code, or the launch itself fails (as when the
`glslc` binary is absent, which raises `FileNotFoundError` in Python). -/
inductive ProcOutcome : Type
  | exit (code : Int)
  | launchFailure (msg : String)
deriving DecidableEq

/-- The external world: what outcome each possible argument vector produces. -/
def Env : Type := List String → ProcOutcome

/-- An environment that never fails to launch the compiler: every invocation
produces some exit code (zero or not). -/
def envOk (env : Env) : Prop := ∀ args, ∃ c, env args = ProcOutcome.exit c

/-- Observable events of a run: `os.makedirs` on a path, a `subprocess.run`
invocation with an argument vector, and a console `print`. -/
inductive Event : Type
  | mkdirs (path : String)
  | call (args : List String)
  | print (msg : String)
deriving DecidableEq

/-- Single-quote character, for rendering Python `repr` of strings. -/
def squote : String := String.singleton (Char.ofNat 39)

/-- Embeds Python `repr` of a list of plain strings: `["a", "b"]` renders as
a bracketed, comma-separated list of single-quoted items. -/
def pyReprList (args : List String) : String :=
  "[" ++ String.intercalate ", " (args.map (fun a => squote ++ a ++ squote)) ++ "]"

/-- Embeds `str(subprocess.CalledProcessError(code, args))` as interpolated by
the script (negative codes come from signals; the representation of the signal
itself is abbreviated to its number). -/
def calledProcessErrorStr (args : List String) (code : Int) : String :=
  if code < 0 then
    "Command " ++ squote ++ pyReprList args ++ squote ++ " died with signal "
      ++ toString (-code) ++ "."
  else
    "Command " ++ squote ++ pyReprList args ++ squote
      ++ " returned non-zero exit status " ++ toString code ++ "."

/-- Source line `print(f"Compiled: {shader_path} -> {output_path}")`. -/
def successMsg (filename : String) : String :=
  "Compiled: " ++ shaderPath filename ++ " -> " ++ outputPath filename

/-- Source line `print(f"Error compiling {shader_path}: {e}")`. -/
def failMsg (filename : String) (code : Int) : String :=
  "Error compiling " ++ shaderPath filename ++ ": "
    ++ calledProcessErrorStr (compileArgs filename) code

/-- Loop body for one matching file: the `try` block runs
`subprocess.run(..., check=True)`; exit code zero prints the success message,
a non-zero exit raises `CalledProcessError` which the `except` clause catches
and prints; a launch failure raises an error that no clause catches, so the
second component records an uncaught exception. -/
def runOne (env : Env) (filename : String) : List Event × Bool :=
  match env (compileArgs filename) with
  | ProcOutcome.exit c =>
    if c = 0 then
      ([Event.call (compileArgs filename), Event.print (successMsg filename)], false)
    else
      ([Event.call (compileArgs filename), Event.print (failMsg filename c)], false)
  | ProcOutcome.launchFailure _ => ([Event.call (compileArgs filename)], true)

/-- The `for filename in os.listdir(shader_dir)` loop: non-matching names are
skipped; an uncaught exception aborts the remaining iteration. -/
def runLoop (env : Env) : List String → List Event × Bool
  | [] => ([], false)
  | f :: rest =>
    if matchesShader f then
      if (runOne env f).2 then runOne env f
      else ((runOne env f).1 ++ (runLoop env rest).1, (runLoop env rest).2)
    else runLoop env rest

/-- The whole script: `os.makedirs(output_dir, exist_ok=True)` first, then the
loop over the given directory listing.  Returns the event trace and whether
the run was aborted by an uncaught exception. -/
def runScript (env : Env) (listing : List String) : List Event × Bool :=
  (Event.mkdirs output_dir :: (runLoop env listing).1, (runLoop env listing).2)

/-- Splits a character list on the slash separator, embedding
`path.split("/")`. -/
def splitSlash : List Char → List (List Char)
  | [] => [[]]
  | c :: cs =>
    if c = '/' then [] :: splitSlash cs
    else
      match splitSlash cs with
      | [] => [[c]]
      | p :: ps => (c :: p) :: ps

/-- Joins path components with the slash separator (inverse of `splitSlash`). -/
def joinParts : List (List Char) → List Char
  | [] => []
  | [p] => p
  | p :: q :: ps => p ++ '/' :: joinParts (q :: ps)

/-- All ancestor paths of a path, shortest first, ending with the path itself:
the directories `os.makedirs` creates recursively. -/
def ancestorPaths (path : String) : List String :=
  (List.range (splitSlash path.data).length).map
    (fun k => String.mk (joinParts ((splitSlash path.data).take (k + 1))))

/-- Adds a directory to the set of existing directories if absent. -/
def addDir (fs : List String) (p : String) : List String :=
  if p ∈ fs then fs else p :: fs

/-- Embeds `os.makedirs(path, exist_ok)` over a set of existing directories:
creates the path and all its ancestors recursively; raises `FileExistsError`
only when the path already exists and `exist_ok` is false. -/
def makedirs (fs : List String) (path : String) (exist_ok : Bool) :
    Except String (List String) :=
  if path ∈ fs ∧ exist_ok = false then Except.error "FileExistsError"
  else Except.ok ((ancestorPaths path).foldl addDir fs)

/-- A directory entry as the filesystem holds it: `os.listdir` exposes only
the name; whether the entry is itself a directory is invisible to the script. -/
structure DirEntry : Type where
  name : String
  isDir : Bool
deriving DecidableEq

/-- Embeds `os.listdir`: the names of the entries, types forgotten. -/
def listdir (entries : List DirEntry) : List String :=
  entries.map DirEntry.name

/-- The script run against a typed directory: only the names reach the loop. -/
def runScriptFS (env : Env) (entries : List DirEntry) : List Event × Bool :=
  runScript env (listdir entries)

/-- Environment in which every compile exits with code zero. -/
def envZero : Env := fun _ => ProcOutcome.exit 0

/-- Environment in which the compiler binary is absent: every launch fails
with `FileNotFoundError`. -/
def envAbsent : Env := fun _ =>
  ProcOutcome.launchFailure "FileNotFoundError: No such file or directory: glslc"

example : output_dir = "resources/shaders/spv" := by decide
example : matchesShader "hit.rchit" = true := by decide
example : matchesShader "notes.txt" = false := by decide
example : shaderPath "hit.rchit" = "resources/shaders/hit.rchit" := by decide
example : outputPath "hit.rchit" = "resources/shaders/spv/hit.rchit.spv" := by decide
example : ancestorPaths "resources/shaders/spv"
    = ["resources", "resources/shaders", "resources/shaders/spv"] := by decide

/-- Environment in which every compile launches but exits with code 1. -/
def envFail : Env := fun _ => ProcOutcome.exit 1

theorem shaderPath_def (f : String) :
    shaderPath f = if startswith f "/" then f
      else "resources/shaders" ++ "/" ++ f := by
  have h : (("resources/shaders" == "") || endswith "resources/shaders" "/")
      = false := by decide
  unfold shaderPath ospath_join shader_dir
  rw [h]
  simp

theorem startswith_slash {f : String} (h : startswith f "/" = true) :
    ∃ t, f.data = '/' :: t := by
  unfold startswith at h
  cases hd : f.data with
  | nil =>
    rw [hd] at h
    exact absurd h (by decide)
  | cons c cs =>
    rw [hd] at h
    have h2 : ('/' == c && isPrefixList [] cs) = true := h
    simp only [Bool.and_eq_true, beq_iff_eq, isPrefixList] at h2
    exact ⟨cs, by rw [h2.1]⟩

theorem startswith_long_false (g : String) :
    startswith ("resources/shaders" ++ "/" ++ g) "/" = false := by
  unfold startswith
  rw [String.data_append, String.data_append]
  rfl

theorem shaderPath_inj {f g : String} (h : shaderPath f = shaderPath g) :
    f = g := by
  rw [shaderPath_def, shaderPath_def] at h
  by_cases hf : startswith f "/" = true <;> by_cases hg : startswith g "/" = true
  · rw [if_pos hf, if_pos hg] at h
    exact h
  · rw [if_pos hf, if_neg hg] at h
    rw [h] at hf
    rw [startswith_long_false g] at hf
    cases hf
  · rw [if_neg hf, if_pos hg] at h
    rw [← h] at hg
    rw [startswith_long_false f] at hg
    cases hg
  · rw [if_neg hf, if_neg hg] at h
    have hd := congrArg String.data h
    rw [String.data_append, String.data_append, String.data_append,
      String.data_append] at hd
    have hfg : f.data = g.data := List.append_cancel_left hd
    exact congrArg String.mk hfg

theorem compileArgs_inj {f g : String} (h : compileArgs f = compileArgs g) :
    f = g := by
  simp only [compileArgs, List.cons.injEq, and_true, true_and] at h
  exact shaderPath_inj h.1

theorem runOne_snd_false {env : Env} (hok : envOk env) (f : String) :
    (runOne env f).2 = false := by
  obtain ⟨c, hc⟩ := hok (compileArgs f)
  simp only [runOne, hc]
  split <;> rfl

theorem call_mem_runOne (env : Env) (f : String) :
    Event.call (compileArgs f) ∈ (runOne env f).1 := by
  cases hE : env (compileArgs f) with
  | exit c =>
    simp only [runOne, hE]
    split <;> exact List.mem_cons_self _ _
  | launchFailure m =>
    simp only [runOne, hE]
    exact List.mem_cons_self _ _

theorem call_eq_of_mem_runOne {env : Env} {f : String} {args : List String}
    (h : Event.call args ∈ (runOne env f).1) : args = compileArgs f := by
  cases hE : env (compileArgs f) with
  | exit c =>
    simp only [runOne, hE] at h
    split at h <;> simp_all
  | launchFailure m =>
    simp only [runOne, hE] at h
    simp_all

theorem runLoop_cons (env : Env) (f : String) (l : List String) :
    runLoop env (f :: l) =
      if matchesShader f then
        if (runOne env f).2 then runOne env f
        else ((runOne env f).1 ++ (runLoop env l).1, (runLoop env l).2)
      else runLoop env l := rfl

theorem runLoop_cons_ok {env : Env} (hok : envOk env) (f : String)
    (l : List String) :
    runLoop env (f :: l) =
      ((if matchesShader f then (runOne env f).1 else []) ++ (runLoop env l).1,
        (runLoop env l).2) := by
  rw [runLoop_cons]
  by_cases hm : matchesShader f = true
  · simp [hm, runOne_snd_false hok f]
  · simp [hm]

theorem runLoop_fst_cons_ok {env : Env} (hok : envOk env) (f : String)
    (l : List String) :
    (runLoop env (f :: l)).1 =
      (if matchesShader f then (runOne env f).1 else []) ++ (runLoop env l).1 := by
  rw [runLoop_cons_ok hok]

theorem runLoop_snd_false {env : Env} (hok : envOk env) (l : List String) :
    (runLoop env l).2 = false := by
  induction l with
  | nil => rfl
  | cons f rest ih =>
    rw [runLoop_cons_ok hok]
    exact ih

theorem call_shape_runLoop {env : Env} {l : List String} {args : List String}
    (h : Event.call args ∈ (runLoop env l).1) :
    ∃ g, g ∈ l ∧ matchesShader g = true ∧ args = compileArgs g := by
  induction l with
  | nil => exact absurd h (List.not_mem_nil _)
  | cons f rest ih =>
    rw [runLoop_cons] at h
    by_cases hm : matchesShader f = true
    · rw [if_pos hm] at h
      by_cases hr : (runOne env f).2 = true
      · rw [if_pos hr] at h
        exact ⟨f, List.mem_cons_self f rest, hm, call_eq_of_mem_runOne h⟩
      · rw [if_neg hr] at h
        rcases List.mem_append.mp h with h2 | h2
        · exact ⟨f, List.mem_cons_self f rest, hm, call_eq_of_mem_runOne h2⟩
        · obtain ⟨g, hg, hgm, hga⟩ := ih h2
          exact ⟨g, List.mem_cons_of_mem f hg, hgm, hga⟩
    · rw [if_neg hm] at h
      obtain ⟨g, hg, hgm, hga⟩ := ih h
      exact ⟨g, List.mem_cons_of_mem f hg, hgm, hga⟩

theorem mem_runLoop {env : Env} (hok : envOk env) {f : String}
    {l : List String} (hf : f ∈ l) (hm : matchesShader f = true) {e : Event}
    (he : e ∈ (runOne env f).1) : e ∈ (runLoop env l).1 := by
  induction l with
  | nil => exact absurd hf (List.not_mem_nil f)
  | cons g rest ih =>
    rw [runLoop_fst_cons_ok hok]
    rcases List.mem_cons.mp hf with h | h
    · subst h
      rw [if_pos hm]
      exact List.mem_append_left _ he
    · exact List.mem_append_right _ (ih h)

theorem count_call_runOne {env : Env} (hok : envOk env) (f g : String) :
    ((runOne env f).1.count (Event.call (compileArgs g)))
      = if f = g then 1 else 0 := by
  obtain ⟨c, hc⟩ := hok (compileArgs f)
  have hiff : (compileArgs f = compileArgs g) ↔ (f = g) :=
    ⟨fun h => compileArgs_inj h, fun h => by rw [h]⟩
  simp only [runOne, hc]
  split <;> simp [List.count_cons, hiff]

theorem count_call_runLoop_zero {env : Env} (hok : envOk env) {g : String}
    {l : List String} (hg : g ∉ l) :
    ((runLoop env l).1.count (Event.call (compileArgs g))) = 0 := by
  induction l with
  | nil => rfl
  | cons f rest ih =>
    have hfg : f ≠ g := fun h => hg (h ▸ List.mem_cons_self f rest)
    have hgr : g ∉ rest := fun h => hg (List.mem_cons_of_mem f h)
    rw [runLoop_fst_cons_ok hok, List.count_append]
    by_cases hm : matchesShader f = true
    · rw [if_pos hm, count_call_runOne hok, if_neg hfg, ih hgr]
    · rw [if_neg hm, List.count_nil, ih hgr]

theorem count_call_runLoop_one {env : Env} (hok : envOk env) {g : String}
    {l : List String} (hnd : l.Nodup) (hg : g ∈ l)
    (hm : matchesShader g = true) :
    ((runLoop env l).1.count (Event.call (compileArgs g))) = 1 := by
  induction l with
  | nil => cases hg
  | cons f rest ih =>
    obtain ⟨hf, hndr⟩ := List.nodup_cons.mp hnd
    rw [runLoop_fst_cons_ok hok, List.count_append]
    rcases List.mem_cons.mp hg with h | h
    · subst h
      rw [if_pos hm, count_call_runOne hok, if_pos rfl,
        count_call_runLoop_zero hok hf]
    · have hfg : f ≠ g := fun hEq => hf (hEq ▸ h)
      by_cases hmf : matchesShader f = true
      · rw [if_pos hmf, count_call_runOne hok, if_neg hfg, ih hndr h]
      · rw [if_neg hmf, List.count_nil, ih hndr h]

theorem runScript_fst (env : Env) (listing : List String) :
    (runScript env listing).1
      = Event.mkdirs output_dir :: (runLoop env listing).1 := rfl

theorem runLoop_skip : ∀ (env : Env) (l1 l2 : List String),
    (∀ f ∈ l1, matchesShader f = false) → runLoop env (l1 ++ l2) = runLoop env l2
  | _, [], _, _ => rfl
  | env, f :: rest, l2, h => by
    have hf := h f (List.mem_cons_self f rest)
    rw [List.cons_append, runLoop_cons, if_neg (by rw [hf]; simp)]
    exact runLoop_skip env rest l2 (fun g hg => h g (List.mem_cons_of_mem f hg))

theorem splitSlash_ne_nil (cs : List Char) : splitSlash cs ≠ [] := by
  cases cs with
  | nil => simp [splitSlash]
  | cons c cs =>
    unfold splitSlash
    by_cases h : c = '/'
    · simp [h]
    · rw [if_neg h]
      cases hs : splitSlash cs <;> simp

theorem joinParts_splitSlash (cs : List Char) : joinParts (splitSlash cs) = cs := by
  induction cs with
  | nil => rfl
  | cons c cs ih =>
    unfold splitSlash
    by_cases h : c = '/'
    · subst h
      rw [if_pos rfl]
      cases hs : splitSlash cs with
      | nil => exact absurd hs (splitSlash_ne_nil cs)
      | cons q ps =>
        rw [hs] at ih
        exact congrArg (List.cons '/') ih
    · rw [if_neg h]
      cases hs : splitSlash cs with
      | nil => exact absurd hs (splitSlash_ne_nil cs)
      | cons q ps =>
        rw [hs] at ih
        cases ps with
        | nil => exact congrArg (List.cons c) ih
        | cons r rs => exact congrArg (List.cons c) ih

theorem self_mem_ancestorPaths (path : String) : path ∈ ancestorPaths path := by
  unfold ancestorPaths
  have hn : (splitSlash path.data).length ≠ 0 := by
    intro h
    exact splitSlash_ne_nil path.data (List.length_eq_zero.mp h)
  refine List.mem_map.mpr ⟨(splitSlash path.data).length - 1, ?_, ?_⟩
  · exact List.mem_range.mpr (Nat.sub_lt (Nat.pos_of_ne_zero hn) Nat.one_pos)
  · rw [Nat.sub_add_cancel (Nat.pos_of_ne_zero hn), List.take_length,
      joinParts_splitSlash]

theorem mem_addDir (fs : List String) (p : String) : p ∈ addDir fs p := by
  unfold addDir
  split
  · assumption
  · exact List.mem_cons_self p fs

theorem mem_addDir_of_mem {fs : List String} {p : String} (q : String)
    (h : p ∈ fs) : p ∈ addDir fs q := by
  unfold addDir
  split
  · exact h
  · exact List.mem_cons_of_mem q h

theorem mem_foldl_addDir_left {p : String} :
    ∀ (l : List String) {fs : List String}, p ∈ fs → p ∈ l.foldl addDir fs
  | [], _, h => h
  | q :: rest, _, h => mem_foldl_addDir_left rest (mem_addDir_of_mem q h)

theorem mem_foldl_addDir {p : String} :
    ∀ {l : List String} (fs : List String), p ∈ l → p ∈ l.foldl addDir fs
  | [], _, h => absurd h (List.not_mem_nil p)
  | q :: rest, fs, h => by
    rcases List.mem_cons.mp h with h2 | h2
    · subst h2
      exact mem_foldl_addDir_left rest (mem_addDir fs p)
    · exact mem_foldl_addDir (addDir fs q) h2

theorem foldl_addDir_subset :
    ∀ (l fs : List String), (∀ p ∈ l, p ∈ fs) → l.foldl addDir fs = fs
  | [], _, _ => rfl
  | q :: rest, fs, h => by
    have hq : q ∈ fs := h q (List.mem_cons_self q rest)
    have ha : addDir fs q = fs := by
      unfold addDir
      rw [if_pos hq]
    show List.foldl addDir (addDir fs q) rest = fs
    rw [ha]
    exact foldl_addDir_subset rest fs (fun p hp => h p (List.mem_cons_of_mem q hp))

theorem makedirs_exist_ok (fs : List String) (path : String) :
    makedirs fs path true
      = Except.ok ((ancestorPaths path).foldl addDir fs) := by
  unfold makedirs
  rw [if_neg (by simp)]

/-- Claim C2: for every entry of the source directory whose name ends with a
recognized suffix, exactly one compile invocation is attempted, and its output
path is deterministically the output directory joined with the source file
name plus the fixed literal suffix ".spv".  (The directory listing has
distinct names, and the environment does not abort the run by a launch
failure.) -/
theorem claim2_unique_invocation (env : Env) (listing : List String)
    (f : String) (hnd : listing.Nodup) (hok : envOk env) (hf : f ∈ listing)
    (hm : matchesShader f = true) :
    ((runScript env listing).1.count
      (Event.call ["glslc", shaderPath f, "--target-spv=spv1.6", "-o",
        ospath_join output_dir (f ++ ".spv")])) = 1 := by
  show ((runScript env listing).1.count (Event.call (compileArgs f))) = 1
  rw [runScript_fst, List.count_cons]
  simp [count_call_runLoop_one hok hnd hf hm]

theorem claim2_witness :
    (["hit.rchit", "notes.txt"] : List String).Nodup ∧ envOk envZero ∧
    ((runScript envZero ["hit.rchit", "notes.txt"]).1.count
      (Event.call ["glslc", shaderPath "hit.rchit", "--target-spv=spv1.6", "-o",
        ospath_join output_dir ("hit.rchit" ++ ".spv")])) = 1 :=
  ⟨by decide, fun _ => ⟨0, rfl⟩,
    claim2_unique_invocation envZero ["hit.rchit", "notes.txt"] "hit.rchit"
      (by decide) (fun _ => ⟨0, rfl⟩) (by decide) (by decide)⟩

/-- Claim C4: for every entry of the source directory whose name does not end
with any recognized suffix, no compiler invocation is ever made for that
entry (no call event carries the argument vector the script would build for
it), whatever the environment does. -/
theorem claim4_nonmatching_never_called (env : Env) (listing : List String)
    (f : String) (hf : f ∈ listing) (hm : matchesShader f = false) :
    Event.call (compileArgs f) ∉ (runScript env listing).1 := by
  intro h
  rw [runScript_fst] at h
  rcases List.mem_cons.mp h with h2 | h2
  · cases h2
  · obtain ⟨g, _, hgm, hga⟩ := call_shape_runLoop h2
    have hgf : g = f := compileArgs_inj hga.symm
    rw [hgf] at hgm
    rw [hgm] at hm
    cases hm

theorem claim4_witness :
    "notes.txt" ∈ (["hit.rchit", "notes.txt"] : List String) ∧
    matchesShader "notes.txt" = false ∧
    Event.call (compileArgs "notes.txt")
      ∉ (runScript envZero ["hit.rchit", "notes.txt"]).1 :=
  ⟨by decide, by decide,
    claim4_nonmatching_never_called envZero ["hit.rchit", "notes.txt"]
      "notes.txt" (by decide) (by decide)⟩

/-- Claim C5: every compiler invocation uses exactly the fixed argument
template: the executable name "glslc", then the source path, then the flag
"--target-spv=spv1.6", then "-o" followed by the output path, in that
order. -/
theorem claim5_arg_template (env : Env) (listing : List String)
    (args : List String) (h : Event.call args ∈ (runScript env listing).1) :
    ∃ f, args = ["glslc", shaderPath f, "--target-spv=spv1.6", "-o",
      outputPath f] := by
  rw [runScript_fst] at h
  rcases List.mem_cons.mp h with h2 | h2
  · cases h2
  · obtain ⟨g, _, _, hga⟩ := call_shape_runLoop h2
    exact ⟨g, hga⟩

theorem claim5_witness :
    Event.call (compileArgs "hit.rchit")
      ∈ (runScript envZero ["hit.rchit"]).1 ∧
    ∃ f, compileArgs "hit.rchit" = ["glslc", shaderPath f,
      "--target-spv=spv1.6", "-o", outputPath f] :=
  ⟨by decide,
    claim5_arg_template envZero ["hit.rchit"] (compileArgs "hit.rchit")
      (by decide)⟩

/-- Claim C3: if the compile of a matching file A exits with a non-zero code,
a failure message naming the source path of A and the error detail is
emitted, and the compile of every matching file B listed after A is still
attempted (the iteration is not aborted).  (The environment launches every
process; non-zero exits are the failures under consideration.) -/
theorem claim3_failure_continues (env : Env) (l1 l2 : List String)
    (A : String) (hok : envOk env) (hm : matchesShader A = true) (c : Int)
    (hc : env (compileArgs A) = ProcOutcome.exit c) (hc0 : c ≠ 0) :
    Event.print ("Error compiling " ++ shaderPath A ++ ": "
        ++ calledProcessErrorStr (compileArgs A) c)
      ∈ (runScript env (l1 ++ A :: l2)).1 ∧
    ∀ B ∈ l2, matchesShader B = true →
      Event.call (compileArgs B) ∈ (runScript env (l1 ++ A :: l2)).1 := by
  have hAmem : A ∈ l1 ++ A :: l2 :=
    List.mem_append_right l1 (List.mem_cons_self A l2)
  constructor
  · have hP : Event.print (failMsg A c) ∈ (runOne env A).1 := by
      simp [runOne, hc, hc0]
    exact List.mem_cons_of_mem _ (mem_runLoop hok hAmem hm hP)
  · intro B hB hmB
    have hBmem : B ∈ l1 ++ A :: l2 :=
      List.mem_append_right l1 (List.mem_cons_of_mem A hB)
    exact List.mem_cons_of_mem _
      (mem_runLoop hok hBmem hmB (call_mem_runOne env B))

theorem claim3_witness :
    Event.print ("Error compiling " ++ shaderPath "hit.rchit" ++ ": "
        ++ calledProcessErrorStr (compileArgs "hit.rchit") 1)
      ∈ (runScript envFail ([] ++ "hit.rchit" :: ["miss.rmiss"])).1 ∧
    Event.call (compileArgs "miss.rmiss")
      ∈ (runScript envFail ([] ++ "hit.rchit" :: ["miss.rmiss"])).1 :=
  ⟨(claim3_failure_continues envFail [] ["miss.rmiss"] "hit.rchit"
      (fun _ => ⟨1, rfl⟩) (by decide) 1 rfl (by decide)).1,
    (claim3_failure_continues envFail [] ["miss.rmiss"] "hit.rchit"
      (fun _ => ⟨1, rfl⟩) (by decide) 1 rfl (by decide)).2
      "miss.rmiss" (List.mem_cons_self _ _) (by decide)⟩

/-- Claim C8: for every matching file whose compile process exits with code
zero, a success message naming both the source path and the output path is
emitted for that file.  (The environment launches every process, so the run
is not aborted before reaching the file.) -/
theorem claim8_success_message (env : Env) (listing : List String)
    (f : String) (hok : envOk env) (hf : f ∈ listing)
    (hm : matchesShader f = true)
    (hc : env (compileArgs f) = ProcOutcome.exit 0) :
    Event.print ("Compiled: " ++ shaderPath f ++ " -> " ++ outputPath f)
      ∈ (runScript env listing).1 := by
  have hP : Event.print (successMsg f) ∈ (runOne env f).1 := by
    simp [runOne, hc, successMsg]
  exact List.mem_cons_of_mem _ (mem_runLoop hok hf hm hP)

theorem claim8_witness :
    envZero (compileArgs "hit.rchit") = ProcOutcome.exit 0 ∧
    Event.print ("Compiled: " ++ shaderPath "hit.rchit" ++ " -> "
        ++ outputPath "hit.rchit")
      ∈ (runScript envZero ["hit.rchit", "notes.txt"]).1 :=
  ⟨rfl, claim8_success_message envZero ["hit.rchit", "notes.txt"] "hit.rchit"
    (fun _ => ⟨0, rfl⟩) (by decide) (by decide) rfl⟩

/-- Claim C7: before any compile is attempted, the output directory is
ensured to exist: the first event of every run is the `makedirs` on the
output directory, and the embedded `os.makedirs` with `exist_ok` set always
succeeds, creates the directory and all its ancestors recursively, and is
idempotent when the directory already exists. -/
theorem claim7_output_dir_ensured (env : Env) (listing : List String)
    (fs : List String) :
    (runScript env listing).1.head? = some (Event.mkdirs output_dir) ∧
    ∃ fs2, makedirs fs output_dir true = Except.ok fs2 ∧
      (∀ p ∈ ancestorPaths output_dir, p ∈ fs2) ∧ output_dir ∈ fs2 ∧
      makedirs fs2 output_dir true = Except.ok fs2 := by
  refine ⟨rfl, (ancestorPaths output_dir).foldl addDir fs,
    makedirs_exist_ok fs output_dir, fun p hp => mem_foldl_addDir fs hp,
    mem_foldl_addDir fs (self_mem_ancestorPaths output_dir), ?_⟩
  rw [makedirs_exist_ok]
  rw [foldl_addDir_subset _ _ (fun p hp => mem_foldl_addDir fs hp)]

/-- Claim C9: the suffix filter tests only the entry name, never its type:
a directory entry that is itself a subdirectory but whose name ends with a
recognized suffix is passed to the compiler like any shader source file. -/
theorem claim9_no_file_type_check (env : Env) (entries : List DirEntry)
    (e : DirEntry) (hok : envOk env) (he : e ∈ entries)
    (hdir : e.isDir = true) (hm : matchesShader e.name = true) :
    Event.call (compileArgs e.name) ∈ (runScriptFS env entries).1 := by
  have hn : e.name ∈ listdir entries := List.mem_map_of_mem DirEntry.name he
  exact List.mem_cons_of_mem _ (mem_runLoop hok hn hm (call_mem_runOne env e.name))

theorem claim9_witness :
    DirEntry.mk "weird.rchit" true ∈ [DirEntry.mk "weird.rchit" true] ∧
    (DirEntry.mk "weird.rchit" true).isDir = true ∧
    Event.call (compileArgs "weird.rchit")
      ∈ (runScriptFS envZero [DirEntry.mk "weird.rchit" true]).1 :=
  ⟨List.mem_cons_self _ _, rfl,
    claim9_no_file_type_check envZero [DirEntry.mk "weird.rchit" true]
      (DirEntry.mk "weird.rchit" true) (fun _ => ⟨0, rfl⟩)
      (List.mem_cons_self _ _) rfl (by decide)⟩

/-- Claim C1 is refuted: when the compiler binary is absent (every launch
raises `FileNotFoundError`), the failure is NOT caught: with matching files
`hit.rchit` and `miss.rmiss` the whole run aborts at the first matching file
with an uncaught exception, the trace holds no failure message at all, and
the second matching file is never attempted. -/
theorem claim1_counterexample :
    runScript envAbsent ["hit.rchit", "miss.rmiss"]
      = ([Event.mkdirs output_dir, Event.call (compileArgs "hit.rchit")],
          true) ∧
    Event.call (compileArgs "miss.rmiss")
      ∉ (runScript envAbsent ["hit.rchit", "miss.rmiss"]).1 := by
  constructor
  · decide
  · decide

/-- Claim C1 amended: only `subprocess.CalledProcessError` (a non-zero exit)
is caught per file; a launch failure propagates as an uncaught exception, so
the run aborts at the first matching file: the trace is exactly the output
directory creation followed by that single invocation attempt — no failure
message is printed for the file and no later file is processed. -/
theorem claim1_amended_launch_failure_aborts (env : Env) (l1 : List String)
    (A : String) (l2 : List String) (m : String)
    (h1 : ∀ f ∈ l1, matchesShader f = false) (hA : matchesShader A = true)
    (hfail : env (compileArgs A) = ProcOutcome.launchFailure m) :
    runScript env (l1 ++ A :: l2)
      = ([Event.mkdirs output_dir, Event.call (compileArgs A)], true) := by
  have hone : runOne env A = ([Event.call (compileArgs A)], true) := by
    unfold runOne
    rw [hfail]
  have hloop : runLoop env (l1 ++ A :: l2)
      = ([Event.call (compileArgs A)], true) := by
    rw [runLoop_skip env l1 (A :: l2) h1, runLoop_cons, if_pos hA, hone]
    rfl
  show (Event.mkdirs output_dir :: (runLoop env (l1 ++ A :: l2)).1,
    (runLoop env (l1 ++ A :: l2)).2) = _
  rw [hloop]

theorem claim1_amended_witness :
    matchesShader "hit.rchit" = true ∧
    envAbsent (compileArgs "hit.rchit")
      = ProcOutcome.launchFailure
          "FileNotFoundError: No such file or directory: glslc" ∧
    runScript envAbsent ([] ++ "hit.rchit" :: ["miss.rmiss"])
      = ([Event.mkdirs output_dir, Event.call (compileArgs "hit.rchit")],
          true) :=
  ⟨by decide, rfl,
    claim1_amended_launch_failure_aborts envAbsent [] "hit.rchit"
      ["miss.rmiss"] "FileNotFoundError: No such file or directory: glslc"
      (fun f hf => absurd hf (List.not_mem_nil f)) (by decide) rfl⟩

/-- Claim C6: with directory listing `hit.rchit`, `miss.rmiss`, `notes.txt`
and both compiles exiting zero, the run is exactly: create the output
directory, compile `hit.rchit` to `hit.rchit.spv` inside the output
directory with a success message, compile `miss.rmiss` to `miss.rmiss.spv`
likewise, and nothing else — two invocations, two success messages,
`notes.txt` never passed to the compiler, no abort. -/
theorem claim6_scenario :
    runScript envZero ["hit.rchit", "miss.rmiss", "notes.txt"]
      = ([Event.mkdirs "resources/shaders/spv",
          Event.call ["glslc", "resources/shaders/hit.rchit",
            "--target-spv=spv1.6", "-o",
            "resources/shaders/spv/hit.rchit.spv"],
          Event.print
            "Compiled: resources/shaders/hit.rchit -> resources/shaders/spv/hit.rchit.spv",
          Event.call ["glslc", "resources/shaders/miss.rmiss",
            "--target-spv=spv1.6", "-o",
            "resources/shaders/spv/miss.rmiss.spv"],
          Event.print
            "Compiled: resources/shaders/miss.rmiss -> resources/shaders/spv/miss.rmiss.spv"],
         false) := by
  decide

/-- Claim C10: matching is a pure string suffix test with no requirement of a
non-empty stem: a hidden file named exactly `.rchit` is selected and
compiled, producing output name `.rchit.spv` in the output directory. -/
theorem claim10_bare_suffix_name :
    matchesShader ".rchit" = true ∧
    runScript envZero [".rchit"]
      = ([Event.mkdirs "resources/shaders/spv",
          Event.call ["glslc", "resources/shaders/.rchit",
            "--target-spv=spv1.6", "-o",
            "resources/shaders/spv/.rchit.spv"],
          Event.print
            "Compiled: resources/shaders/.rchit -> resources/shaders/spv/.rchit.spv"],
         false) := by
  constructor
  · decide
  · decide
